import Mathlib

/-!
Verification of the CPR codec in cpr2bin.py: a shallow embedding of the
functions read_cpr_blocks, write_cpr_file and the pure cores of
convert_cpr_to_bin and convert_bin_to_cpr, over byte sequences modelled as
List Nat (each element a byte value below 256) with explicit stream
positions, followed by theorems about the codec.
-/

namespace Cpr2Bin

/-- Errors a single conversion can surface.  The source defines one custom
exception class ConversionError (raised with a message at the two magic
checks and at the size cap); the remaining constructors model the builtin
Python exceptions that escape to the generic handler: struct.error from
struct.unpack on a buffer of fewer than 4 bytes, ValueError from int on a
non-numeric string, and UnicodeDecodeError from bytes.decode. -/
inductive PyErr where
  | conversionError (msg : String)
  | structError
  | valueError
  | unicodeDecodeError
deriving DecidableEq

/-- BLOCK_SIZE constant from the source: 16384 bytes (16KB). -/
def BLOCK_SIZE : Nat := 16384

/-- RIFF_HEADER constant from the source: the ASCII bytes of RIFF. -/
def RIFF_HEADER : List Nat := [82, 73, 70, 70]

/-- CPR_FORM_TYPE constant from the source: the ASCII bytes of AMS!. -/
def CPR_FORM_TYPE : List Nat := [65, 77, 83, 33]

/-- The two-byte cartridge-chunk marker from the source (ASCII cb). -/
def CB_TAG : List Nat := [99, 98]

/-- Python file.read(n) at position pos: returns up to n bytes, fewer when
the stream ends first (and [] at or past the end). -/
def readBytes (buf : List Nat) (pos n : Nat) : List Nat :=
  (buf.drop pos).take n

/-- struct.unpack of a little-endian u32 from a 4-byte buffer
(the callers only apply it after checking the length is 4). -/
def le32dec (l : List Nat) : Nat :=
  l.getD 0 0 + 256 * l.getD 1 0 + 65536 * l.getD 2 0 + 16777216 * l.getD 3 0

/-- struct.pack of a little-endian u32.  Exact for n below 2^32; the
source never packs a larger value under the size bounds of this format. -/
def pack32 (n : Nat) : List Nat :=
  [n % 256, n / 256 % 256, n / 65536 % 256, n / 16777216 % 256]

/-- UTF-8 decoding (Python bytes.decode) of a byte list into a list of
codepoints, for sequences made of one- and two-byte encoded characters.
The codec only ever decodes the exactly-two-byte slice chunk_id[2:], on
which this is exact: a three- or four-byte lead cannot be completed within
two bytes, so it is a UnicodeDecodeError here just as in Python. -/
def utf8Decode : List Nat → Except PyErr (List Nat)
  | [] => .ok []
  | b1 :: rest =>
    if b1 < 128 then
      match utf8Decode rest with
      | .ok cs => .ok (b1 :: cs)
      | .error e => .error e
    else if 194 ≤ b1 then
      if b1 ≤ 223 then
        match rest with
        | b2 :: rest2 =>
          if 128 ≤ b2 then
            if b2 ≤ 191 then
              match utf8Decode rest2 with
              | .ok cs => .ok (((b1 - 192) * 64 + (b2 - 128)) :: cs)
              | .error e => .error e
            else .error .unicodeDecodeError
          else .error .unicodeDecodeError
        | [] => .error .unicodeDecodeError
      else .error .unicodeDecodeError
    else .error .unicodeDecodeError

/-- Whitespace stripped by the Python int constructor, restricted to the
codepoints below 2^11 that utf8Decode can produce. -/
def isPyWs (c : Nat) : Bool :=
  (9 ≤ c && c ≤ 13) || c == 32 || c == 133 || c == 160

/-- Decimal-digit value of a codepoint as the Python int constructor sees
it (Unicode category Nd), restricted to codepoints below 2^11: the ASCII,
Arabic-Indic, Extended Arabic-Indic and NKo digit ranges. -/
def dval (c : Nat) : Option Nat :=
  if 48 ≤ c ∧ c ≤ 57 then some (c - 48)
  else if 1632 ≤ c ∧ c ≤ 1641 then some (c - 1632)
  else if 1776 ≤ c ∧ c ≤ 1785 then some (c - 1776)
  else if 1984 ≤ c ∧ c ≤ 1993 then some (c - 1984)
  else none

/-- Leading and trailing whitespace removal performed by the Python int
constructor before parsing. -/
def stripWs (cs : List Nat) : List Nat :=
  ((cs.dropWhile isPyWs).reverse.dropWhile isPyWs).reverse

/-- Digit-run parser of the Python int constructor: a nonempty run of
decimal digits in which a single underscore may stand between two digits.
The Boolean argument records whether the previous character was a digit
(so the run may stop or an underscore may follow). -/
def parseDigits : List Nat → Nat → Bool → Option Nat
  | [], acc, prevDigit => if prevDigit then some acc else none
  | c :: cs, acc, prevDigit =>
    match dval c with
    | some d => parseDigits cs (acc * 10 + d) true
    | none => if c == 95 && prevDigit then parseDigits cs acc false else none

/-- Sign and digit-run parsing of the Python int constructor, applied to
the whitespace-stripped codepoint list. -/
def pyIntStripped : List Nat → Except PyErr Int
  | [] => .error .valueError
  | c :: rest =>
    if c = 43 then
      match parseDigits rest 0 false with
      | some v => .ok (Int.ofNat v)
      | none => .error .valueError
    else if c = 45 then
      match parseDigits rest 0 false with
      | some v => .ok (-(Int.ofNat v))
      | none => .error .valueError
    else
      match parseDigits (c :: rest) 0 false with
      | some v => .ok (Int.ofNat v)
      | none => .error .valueError

/-- The Python int constructor on a string given as a codepoint list:
strip whitespace, accept one optional sign, then a digit run; anything
else is a ValueError. -/
def pyIntOfCps (cs : List Nat) : Except PyErr Int :=
  pyIntStripped (stripWs cs)

/-- int(chunk_id[2:].decode()) from the source: UTF-8 decode of the tag
suffix, then integer parsing; either step may fail with the corresponding
builtin Python error. -/
def pyIntOfBytes (bs : List Nat) : Except PyErr Int :=
  match utf8Decode bs with
  | .ok cs => pyIntOfCps cs
  | .error e => .error e

/-- Python dict assignment blocks[k] = v on an insertion-ordered
association list: overwrite in place when the key exists, append
otherwise. -/
def dictInsert : List (Int × List Nat) → Int → List Nat → List (Int × List Nat)
  | [], k, v => [(k, v)]
  | p :: rest, k, v => if p.1 = k then (k, v) :: rest else p :: dictInsert rest k v

/-- The chunk loop of read_cpr_blocks (source lines 38-57).  While the
position is below total_size + 8: read a 4-byte chunk id and a u32 chunk
size (struct.error if the size field is short); skip non-cartridge chunks
by seeking chunk_size forward; otherwise parse the block number from the
tag suffix, read min(chunk_size, BLOCK_SIZE) bytes of data, store them,
and skip the remainder of an oversized chunk. -/
def readChunks (buf : List Nat) (totalSize pos : Nat)
    (blocks : List (Int × List Nat)) : Except PyErr (List (Int × List Nat)) :=
  if hpos : pos < totalSize + 8 then
    let chunkId := readBytes buf pos 4
    let sizeB := readBytes buf (pos + chunkId.length) 4
    if sizeB.length = 4 then
      let chunkSize := le32dec sizeB
      if chunkId.take 2 = CB_TAG then
        match pyIntOfBytes (chunkId.drop 2) with
        | .error e => .error e
        | .ok blockNum =>
          let blockData := readBytes buf (pos + chunkId.length + 4) (min chunkSize BLOCK_SIZE)
          if BLOCK_SIZE < chunkSize then
            readChunks buf totalSize
              (pos + chunkId.length + 4 + blockData.length + (chunkSize - BLOCK_SIZE))
              (dictInsert blocks blockNum blockData)
          else
            readChunks buf totalSize (pos + chunkId.length + 4 + blockData.length)
              (dictInsert blocks blockNum blockData)
      else
        readChunks buf totalSize (pos + chunkId.length + 4 + chunkSize) blocks
    else .error .structError
  else .ok blocks
termination_by totalSize + 8 - pos
decreasing_by
  all_goals simp_wf
  all_goals omega

/-- read_cpr_blocks from the source: check the RIFF magic, read total_size
(struct.error when the size field cannot supply 4 bytes), check the AMS!
form type, then run the chunk loop from position 12. -/
def read_cpr_blocks (buf : List Nat) : Except PyErr (List (Int × List Nat)) :=
  if readBytes buf 0 4 ≠ RIFF_HEADER then
    .error (.conversionError "Not a valid RIFF file")
  else
    let sizeB := readBytes buf 4 4
    if sizeB.length = 4 then
      let totalSize := le32dec sizeB
      if readBytes buf 8 4 ≠ CPR_FORM_TYPE then
        .error (.conversionError "Not a valid CPR file (missing AMS! identifier)")
      else
        readChunks buf totalSize 12 []
    else .error .structError

/-- Decimal digits of a natural number, most significant first. -/
def natDecDigits (n : Nat) : List Nat :=
  if _h : n < 10 then [n] else natDecDigits (n / 10) ++ [n % 10]
decreasing_by
  exact Nat.div_lt_self (by omega) (by omega)

/-- Left padding with the ASCII zero byte up to a given width. -/
def leftPadZero (w : Nat) (l : List Nat) : List Nat :=
  List.replicate (w - l.length) 48 ++ l

/-- Python formatting of a block number with the 02d format specifier, as
bytes: decimal digits zero-padded to width 2, the padding coming after the
sign of a negative number. -/
def pyFormat02d (n : Int) : List Nat :=
  if n < 0 then 45 :: leftPadZero 1 ((natDecDigits (-n).toNat).map (fun d => 48 + d))
  else leftPadZero 2 ((natDecDigits n.toNat).map (fun d => 48 + d))

/-- Chunk id written for a block number: the cb marker followed by the
02d-formatted number. -/
def cbTag (n : Int) : List Nat := CB_TAG ++ pyFormat02d n

/-- Insertion of a key-value pair into a key-sorted association list. -/
def insertByKey (p : Int × List Nat) : List (Int × List Nat) → List (Int × List Nat)
  | [] => [p]
  | q :: rest => if p.1 ≤ q.1 then p :: q :: rest else q :: insertByKey p rest

/-- Iteration order of write_cpr_file: sorted(blocks.keys()).  Since the
collection has one entry per key, iterating the sorted keys and looking
each one up is iterating the key-sorted association list. -/
def sortByKey : List (Int × List Nat) → List (Int × List Nat)
  | [] => []
  | p :: rest => insertByKey p (sortByKey rest)

/-- Serialized chunk sequence: for each block in list order, the chunk id,
the data length as a little-endian u32, and the raw data. -/
def chunksBytes : List (Int × List Nat) → List Nat
  | [] => []
  | p :: rest => cbTag p.1 ++ (pack32 p.2.length ++ (p.2 ++ chunksBytes rest))

/-- write_cpr_file from the source: total_size is 4 plus 8 + len(data)
per block; the output is RIFF, total_size, AMS!, then the chunks in
ascending key order.  The byte list returned is the file content. -/
def write_cpr_file (blocks : List (Int × List Nat)) : List Nat :=
  RIFF_HEADER ++ (pack32 (4 + (blocks.map (fun p => 8 + p.2.length)).sum) ++
    (CPR_FORM_TYPE ++ chunksBytes (sortByKey blocks)))

/-- Padding applied by convert_cpr_to_bin before writing a block: data
shorter than BLOCK_SIZE is extended with zero bytes to BLOCK_SIZE. -/
def padBlock (d : List Nat) : List Nat :=
  if d.length < BLOCK_SIZE then d ++ List.replicate (BLOCK_SIZE - d.length) 0 else d

/-- Concatenation of padded blocks in list order. -/
def catBlocks : List (Int × List Nat) → List Nat
  | [] => []
  | p :: rest => padBlock p.2 ++ catBlocks rest

/-- Output-assembly core of convert_cpr_to_bin (source lines 92-98): the
bytes written to the flat image for a decoded collection are the padded
blocks in ascending key order. -/
def cprToBinImage (blocks : List (Int × List Nat)) : List Nat :=
  catBlocks (sortByKey blocks)

/-- Block-splitting loop of convert_bin_to_cpr (source lines 122-129):
for each block number below the block count, slice BLOCK_SIZE bytes and
keep the slice when it is nonempty. -/
def sliceBlocks (binData : List Nat) (total : Nat) : List (Int × List Nat) :=
  (List.range total).filterMap (fun i =>
    let d := (binData.drop (i * BLOCK_SIZE)).take BLOCK_SIZE
    if d.length > 0 then some ((i : Int), d) else none)

/-- Pure core of convert_bin_to_cpr (file handling excluded): compute the
block count as the ceiling of the length over BLOCK_SIZE, fail when it
exceeds 32 before any output exists, otherwise build the blocks and
serialize them with write_cpr_file. -/
def convert_bin_to_cpr (binData : List Nat) : Except PyErr (List Nat) :=
  let totalBlocks := (binData.length + BLOCK_SIZE - 1) / BLOCK_SIZE
  if totalBlocks > 32 then
    .error (.conversionError "Input file too large (max 32 blocks / 512KB supported)")
  else .ok (write_cpr_file (sliceBlocks binData totalBlocks))

/-- Layout of one chunk as the specification words it: the literal cb, the
index zero-padded to exactly two decimal digits, the data length as a
little-endian u32, then the raw data bytes.  Stated for comparison with
write_cpr_file. -/
def chunkSpec (p : Int × List Nat) : List Nat :=
  [99, 98, 48 + p.1.toNat / 10, 48 + p.1.toNat % 10] ++ pack32 p.2.length ++ p.2

/-- One chunk per block, in list order, as the specification words it. -/
def chunksSpec : List (Int × List Nat) → List Nat
  | [] => []
  | p :: rest => chunkSpec p ++ chunksSpec rest

/-- Encode output layout as the specification words it: RIFF, then
total_size = 4 + sum of (8 + len(data)) over all blocks as a little-endian
u32, then AMS!, then one chunk per block in ascending numeric index
order. -/
def encodeSpecLayout (blocks : List (Int × List Nat)) : List Nat :=
  RIFF_HEADER ++ pack32 (4 + (blocks.map (fun p => 8 + p.2.length)).sum) ++
    CPR_FORM_TYPE ++ chunksSpec blocks

/-- Assembly output as the specification words it: every present block
zero-padded up to 16384 bytes, concatenated in list order. -/
def catBlocksSpec : List (Int × List Nat) → List Nat
  | [] => []
  | p :: rest => (p.2 ++ List.replicate (BLOCK_SIZE - p.2.length) 0) ++ catBlocksSpec rest

/-- Flat image as the specification words it: the padded blocks present in
the collection, in ascending numeric index order, gaps not filled. -/
def binImageSpec (blocks : List (Int × List Nat)) : List Nat :=
  catBlocksSpec (sortByKey blocks)

/-! Helper lemmas about list reading and the serialized fields. -/

theorem take_app_len {α : Type} (l₁ l₂ : List α) (n : Nat) (h : l₁.length = n) :
    (l₁ ++ l₂).take n = l₁ := by
  subst h; exact List.take_left l₁ l₂

theorem drop_app_len {α : Type} (l₁ l₂ : List α) (n : Nat) (h : l₁.length = n) :
    (l₁ ++ l₂).drop n = l₂ := by
  subst h; exact List.drop_left l₁ l₂

theorem pack32_length (n : Nat) : (pack32 n).length = 4 := rfl

theorem le32_pack32 (n : Nat) (h : n < 2 ^ 32) : le32dec (pack32 n) = n := by
  simp only [le32dec, pack32, List.getD_cons_zero, List.getD_cons_succ]
  omega

/-! Unfolding lemmas for the chunk loop. -/

theorem readChunks_exit (buf : List Nat) (t pos : Nat) (acc : List (Int × List Nat))
    (h : ¬ pos < t + 8) : readChunks buf t pos acc = .ok acc := by
  rw [readChunks]
  simp [h]

/-- One iteration of the chunk loop when the stream at the current
position holds a full 4-byte tag, a full 4-byte size field and the rest of
the buffer.  The unconditional term chunkSize - BLOCK_SIZE agrees with the
conditional seek of the source because natural subtraction truncates at
zero. -/
theorem readChunks_step (buf : List Nat) (t pos : Nat) (acc : List (Int × List Nat))
    (tagB sizeB rest : List Nat)
    (hpos : pos < t + 8)
    (hdrop : buf.drop pos = tagB ++ (sizeB ++ rest))
    (htag : tagB.length = 4) (hsz : sizeB.length = 4) :
    readChunks buf t pos acc =
      if tagB.take 2 = CB_TAG then
        match pyIntOfBytes (tagB.drop 2) with
        | .error e => .error e
        | .ok n =>
            readChunks buf t
              (pos + 8 + (rest.take (min (le32dec sizeB) BLOCK_SIZE)).length +
                (le32dec sizeB - BLOCK_SIZE))
              (dictInsert acc n (rest.take (min (le32dec sizeB) BLOCK_SIZE)))
      else readChunks buf t (pos + 8 + le32dec sizeB) acc := by
  have h1 : readBytes buf pos 4 = tagB := by
    unfold readBytes; rw [hdrop]; exact take_app_len _ _ _ htag
  have hsplit4 : buf.drop (pos + 4) = (buf.drop pos).drop 4 := by
    rw [List.drop_drop]
  have hd4 : buf.drop (pos + 4) = sizeB ++ rest := by
    rw [hsplit4, hdrop, ← htag, List.drop_left]
  have h2 : readBytes buf (pos + 4) 4 = sizeB := by
    unfold readBytes; rw [hd4]; exact take_app_len _ _ _ hsz
  have hsplit8 : buf.drop (pos + 4 + 4) = (buf.drop (pos + 4)).drop 4 := by
    rw [List.drop_drop]
  have hd8 : buf.drop (pos + 4 + 4) = rest := by
    rw [hsplit8, hd4, ← hsz, List.drop_left]
  have h3 : readBytes buf (pos + 4 + 4) (min (le32dec sizeB) BLOCK_SIZE) =
      rest.take (min (le32dec sizeB) BLOCK_SIZE) := by
    unfold readBytes; rw [hd8]
  rw [readChunks, dif_pos hpos]
  simp only [h1, htag, h2, hsz, h3]
  rw [if_pos trivial]
  by_cases hcb : tagB.take 2 = CB_TAG
  · rw [if_pos hcb, if_pos hcb]
    cases hpi : pyIntOfBytes (tagB.drop 2) with
    | error e => rfl
    | ok n =>
      dsimp only
      by_cases h16 : BLOCK_SIZE < le32dec sizeB
      · rw [if_pos h16, show pos + 4 + 4 = pos + 8 from by omega]
      · rw [if_neg h16, show pos + 4 + 4 = pos + 8 from by omega,
          Nat.sub_eq_zero_of_le (le_of_not_lt h16)]
        simp
  · rw [if_neg hcb, if_neg hcb, show pos + 4 + 4 = pos + 8 from by omega]

/-- Header processing: on a buffer laid out as RIFF, a packed total size
below 2^32, and AMS! followed by the chunk area, read_cpr_blocks reaches
the chunk loop at position 12. -/
theorem read_cpr_header (t : Nat) (body : List Nat) (ht : t < 2 ^ 32) :
    read_cpr_blocks (RIFF_HEADER ++ (pack32 t ++ (CPR_FORM_TYPE ++ body))) =
      readChunks (RIFF_HEADER ++ (pack32 t ++ (CPR_FORM_TYPE ++ body))) t 12 [] := by
  have h4 : (RIFF_HEADER ++ (pack32 t ++ (CPR_FORM_TYPE ++ body))).drop 4 =
      pack32 t ++ (CPR_FORM_TYPE ++ body) := drop_app_len _ _ _ rfl
  have h8 : (RIFF_HEADER ++ (pack32 t ++ (CPR_FORM_TYPE ++ body))).drop 8 =
      CPR_FORM_TYPE ++ body := by
    rw [show (8 : Nat) = 4 + 4 from rfl, ← List.drop_drop, h4,
      drop_app_len _ _ _ (pack32_length t)]
  have hm : readBytes (RIFF_HEADER ++ (pack32 t ++ (CPR_FORM_TYPE ++ body))) 0 4 =
      RIFF_HEADER := by
    unfold readBytes; rw [List.drop_zero]; exact take_app_len _ _ _ rfl
  have hs : readBytes (RIFF_HEADER ++ (pack32 t ++ (CPR_FORM_TYPE ++ body))) 4 4 =
      pack32 t := by
    unfold readBytes; rw [h4]; exact take_app_len _ _ _ (pack32_length t)
  have hf : readBytes (RIFF_HEADER ++ (pack32 t ++ (CPR_FORM_TYPE ++ body))) 8 4 =
      CPR_FORM_TYPE := by
    unfold readBytes; rw [h8]; exact take_app_len _ _ _ rfl
  unfold read_cpr_blocks
  simp only [hm, hs, hf, pack32_length, le32_pack32 t ht, ne_eq, not_true_eq_false,
    if_false, if_pos rfl, ite_false, ite_true]

/-! Formatting and parsing of two-digit block numbers. -/

theorem natDecDigits_small (n : Nat) (h : n < 10) : natDecDigits n = [n] := by
  rw [natDecDigits, dif_pos h]

theorem pyFormat02d_two_digits (m : Nat) (h : m ≤ 99) :
    pyFormat02d (m : Int) = [48 + m / 10, 48 + m % 10] := by
  have h0 : ¬ ((m : Int) < 0) := by omega
  rw [pyFormat02d, if_neg h0, Int.toNat_natCast]
  by_cases h10 : m < 10
  · rw [natDecDigits_small m h10]
    simp only [List.map_cons, List.map_nil, leftPadZero, List.length_cons,
      List.length_nil]
    have hq : m / 10 = 0 := Nat.div_eq_of_lt h10
    have hr : m % 10 = m := Nat.mod_eq_of_lt h10
    rw [hq, hr]
    rfl
  · rw [natDecDigits, dif_neg h10, natDecDigits_small (m / 10) (by omega)]
    simp only [List.map_append, List.map_cons, List.map_nil, leftPadZero,
      List.length_append, List.length_cons, List.length_nil]
    rfl

theorem cbTag_length (n : Int) (h0 : 0 ≤ n) (h99 : n ≤ 99) : (cbTag n).length = 4 := by
  obtain ⟨m, rfl⟩ := Int.eq_ofNat_of_zero_le h0
  rw [cbTag, pyFormat02d_two_digits m (by omega)]
  rfl

theorem dval_digit (k : Nat) (h : k ≤ 9) : dval (48 + k) = some k := by
  rw [dval, if_pos (by omega)]
  simp

theorem isPyWs_digit (k : Nat) (h : k ≤ 9) : isPyWs (48 + k) = false := by
  simp only [isPyWs, Bool.or_eq_false_iff, Bool.and_eq_false_iff,
    decide_eq_false_iff_not, beq_eq_false_iff_ne, ne_eq]
  omega

theorem utf8Decode_ascii2 (a b : Nat) (ha : a < 128) (hb : b < 128) :
    utf8Decode [a, b] = .ok [a, b] := by
  rw [utf8Decode, if_pos ha, utf8Decode, if_pos hb, utf8Decode]

/-- Decoding a two-digit tag suffix recovers the block number: the digits
are not whitespace, not a sign, and parse back to the value. -/
theorem pyInt_format02 (n : Int) (h0 : 0 ≤ n) (h99 : n ≤ 99) :
    pyIntOfBytes (pyFormat02d n) = .ok n := by
  obtain ⟨m, rfl⟩ := Int.eq_ofNat_of_zero_le h0
  have hm : m ≤ 99 := by omega
  rw [pyFormat02d_two_digits m hm]
  have hq9 : m / 10 ≤ 9 := by omega
  have hr9 : m % 10 ≤ 9 := by omega
  rw [pyIntOfBytes, utf8Decode_ascii2 _ _ (by omega) (by omega)]
  dsimp only
  have hstrip : stripWs [48 + m / 10, 48 + m % 10] = [48 + m / 10, 48 + m % 10] := by
    rw [stripWs]
    rw [List.dropWhile_cons, isPyWs_digit _ hq9]
    simp only [Bool.false_eq_true, if_false, List.reverse_cons, List.reverse_nil,
      List.nil_append, List.singleton_append]
    rw [List.dropWhile_cons, isPyWs_digit _ hr9]
    simp
  unfold pyIntOfCps
  rw [hstrip, pyIntStripped]
  rw [if_neg (by omega), if_neg (by omega)]
  have hpd : parseDigits [48 + m / 10, 48 + m % 10] 0 false = some m := by
    rw [parseDigits, dval_digit _ hq9]
    dsimp only
    rw [parseDigits, dval_digit _ hr9]
    dsimp only
    rw [parseDigits, if_pos rfl]
    congr 1
    omega
  rw [hpd]
  rfl

/-! Sorting and dictionary lemmas. -/

theorem insertByKey_perm (p : Int × List Nat) (l : List (Int × List Nat)) :
    List.Perm (insertByKey p l) (p :: l) := by
  induction l with
  | nil => rfl
  | cons q rest ih =>
    rw [insertByKey]
    by_cases h : p.1 ≤ q.1
    · rw [if_pos h]
    · rw [if_neg h]
      exact (ih.cons q).trans (List.Perm.swap p q rest)

theorem sortByKey_perm (l : List (Int × List Nat)) : List.Perm (sortByKey l) l := by
  induction l with
  | nil => rfl
  | cons p rest ih =>
    rw [sortByKey]
    exact (insertByKey_perm p (sortByKey rest)).trans (ih.cons p)

/-- Sorting a collection already in strictly ascending key order leaves it
unchanged. -/
theorem sortByKey_sorted_id (l : List (Int × List Nat))
    (h : l.Chain' (fun p q => p.1 < q.1)) : sortByKey l = l := by
  induction l with
  | nil => rfl
  | cons p rest ih =>
    rw [sortByKey, ih h.tail]
    cases rest with
    | nil => rfl
    | cons q r =>
      rw [insertByKey, if_pos (le_of_lt (List.chain'_cons.mp h).1)]

theorem dictInsert_fresh (acc : List (Int × List Nat)) (k : Int) (v : List Nat)
    (h : ∀ q ∈ acc, q.1 ≠ k) : dictInsert acc k v = acc ++ [(k, v)] := by
  induction acc with
  | nil => rfl
  | cons q rest ih =>
    rw [dictInsert, if_neg (h q (List.mem_cons_self q rest)), List.cons_append]
    rw [ih (fun x hx => h x (List.mem_cons_of_mem q hx))]

/-- Building a dictionary by inserting pairwise-distinct fresh keys in
order appends them. -/
theorem foldl_dictInsert_fresh (l : List (Int × List Nat)) :
    ∀ acc : List (Int × List Nat),
    l.Pairwise (fun p q => p.1 ≠ q.1) →
    (∀ p ∈ l, ∀ q ∈ acc, q.1 ≠ p.1) →
    l.foldl (fun a p => dictInsert a p.1 p.2) acc = acc ++ l := by
  induction l with
  | nil => intro acc _ _; simp
  | cons p rest ih =>
    intro acc hpw hfresh
    rw [List.foldl_cons, dictInsert_fresh acc p.1 p.2
      (fun q hq => hfresh p (List.mem_cons_self p rest) q hq)]
    rw [ih (acc ++ [(p.1, p.2)]) hpw.tail]
    · simp
    · intro x hx q hq
      rcases List.mem_append.mp hq with hq1 | hq2
      · exact hfresh x (List.mem_cons_of_mem p hx) q hq1
      · have : q = (p.1, p.2) := by simpa using hq2
        subst this
        exact (List.pairwise_cons.mp hpw).1 x hx

/-! Length bookkeeping for the serialized chunks. -/

theorem chunksBytes_length (l : List (Int × List Nat))
    (hk : ∀ p ∈ l, 0 ≤ p.1 ∧ p.1 ≤ 99) :
    (chunksBytes l).length = (l.map (fun p => 8 + p.2.length)).sum := by
  induction l with
  | nil => rfl
  | cons p rest ih =>
    rw [chunksBytes]
    simp only [List.length_append, List.map_cons, List.sum_cons]
    rw [ih (fun q hq => hk q (List.mem_cons_of_mem p hq)),
      cbTag_length p.1 (hk p (List.mem_cons_self p rest)).1
        (hk p (List.mem_cons_self p rest)).2, pack32_length]
    omega

/-- Chunk-by-chunk decoding of an encoded block sequence: when the buffer
from the current position on holds exactly the serialized chunks of a
block list whose indices are in 0..99 and whose payloads are at most
BLOCK_SIZE long, and the loop bound ends exactly at the end of those
chunks, the loop inserts each block in order. -/
theorem readChunks_chunksBytes (l : List (Int × List Nat)) :
    ∀ (buf : List Nat) (t pos : Nat) (acc : List (Int × List Nat)),
    buf.drop pos = chunksBytes l →
    pos + (chunksBytes l).length = t + 8 →
    (∀ p ∈ l, (0 ≤ p.1 ∧ p.1 ≤ 99) ∧ p.2.length ≤ BLOCK_SIZE) →
    readChunks buf t pos acc =
      .ok (l.foldl (fun a p => dictInsert a p.1 p.2) acc) := by
  induction l with
  | nil =>
    intro buf t pos acc _ h2 _
    rw [List.foldl_nil]
    exact readChunks_exit buf t pos acc (by rw [chunksBytes] at h2; simp at h2; omega)
  | cons p rest ih =>
    intro buf t pos acc h1 h2 hall
    obtain ⟨⟨hn0, hn99⟩, hdlen⟩ := hall p (List.mem_cons_self p rest)
    have htag : (cbTag p.1).length = 4 := cbTag_length p.1 hn0 hn99
    have hclen : (chunksBytes (p :: rest)).length =
        8 + p.2.length + (chunksBytes rest).length := by
      rw [chunksBytes]; simp [htag, pack32_length]; omega
    have hpos : pos < t + 8 := by rw [hclen] at h2; omega
    rw [chunksBytes] at h1
    have hstep := readChunks_step buf t pos acc (cbTag p.1) (pack32 p.2.length)
      (p.2 ++ chunksBytes rest) hpos h1 htag (pack32_length _)
    have hcb : (cbTag p.1).take 2 = CB_TAG := rfl
    rw [hstep, if_pos hcb]
    have hfmt : (cbTag p.1).drop 2 = pyFormat02d p.1 := rfl
    rw [hfmt, pyInt_format02 p.1 hn0 hn99]
    dsimp only
    have hsz : le32dec (pack32 p.2.length) = p.2.length :=
      le32_pack32 _ (by have : BLOCK_SIZE = 16384 := rfl; omega)
    have hmin : min (le32dec (pack32 p.2.length)) BLOCK_SIZE = p.2.length := by
      rw [hsz]; exact Nat.min_eq_left hdlen
    rw [hmin, take_app_len p.2 (chunksBytes rest) p.2.length rfl, hsz,
      Nat.sub_eq_zero_of_le hdlen, Nat.add_zero]
    rw [List.foldl_cons]
    apply ih buf t (pos + 8 + p.2.length) (dictInsert acc p.1 p.2)
    · have : buf.drop (pos + 8 + p.2.length) =
          ((buf.drop pos).drop 8).drop p.2.length := by
        rw [List.drop_drop, List.drop_drop]
        congr 1
        omega
      rw [this, h1]
      rw [show cbTag p.1 ++ (pack32 p.2.length ++ (p.2 ++ chunksBytes rest)) =
        (cbTag p.1 ++ pack32 p.2.length) ++ (p.2 ++ chunksBytes rest) from
        (List.append_assoc _ _ _).symm]
      rw [drop_app_len _ _ 8 (by rw [List.length_append, htag, pack32_length]),
        drop_app_len _ _ p.2.length rfl]
    · rw [hclen] at h2; omega
    · exact fun q hq => hall q (List.mem_cons_of_mem p hq)

theorem chain_keys_pairwise (l : List (Int × List Nat))
    (h : l.Chain' (fun p q => p.1 < q.1)) : l.Pairwise (fun p q => p.1 < q.1) := by
  haveI : IsTrans (Int × List Nat) (fun p q => p.1 < q.1) :=
    ⟨fun a b c h1 h2 => lt_trans h1 h2⟩
  exact List.chain'_iff_pairwise.mp h

/-- A collection with strictly increasing keys all in 0..99 holds at most
100 blocks. -/
theorem keys_length_le (l : List (Int × List Nat))
    (hc : l.Chain' (fun p q => p.1 < q.1))
    (hk : ∀ p ∈ l, 0 ≤ p.1 ∧ p.1 ≤ 99) : l.length ≤ 100 := by
  have hpw := chain_keys_pairwise l hc
  have hnd : (l.map Prod.fst).Nodup := by
    refine List.Pairwise.imp ?_ (List.pairwise_map.mpr hpw)
    exact fun h => ne_of_lt h
  have hmem : ∀ x ∈ l.map Prod.fst, x ∈ Finset.Icc (0 : ℤ) 99 := by
    intro x hx
    obtain ⟨p, hp, rfl⟩ := List.mem_map.mp hx
    exact Finset.mem_Icc.mpr (hk p hp)
  have hsub : (l.map Prod.fst).toFinset ⊆ Finset.Icc (0 : ℤ) 99 :=
    fun x hx => hmem x (List.mem_toFinset.mp hx)
  have hcard := Finset.card_le_card hsub
  rw [List.toFinset_card_of_nodup hnd, Int.card_Icc] at hcard
  have hlen : (l.map Prod.fst).length = l.length := List.length_map l Prod.fst
  omega

/-- Total size written by encode stays far below 2^32 for a collection of
at most 100 blocks of at most BLOCK_SIZE bytes each. -/
theorem total_size_lt (l : List (Int × List Nat))
    (hc : l.Chain' (fun p q => p.1 < q.1))
    (hk : ∀ p ∈ l, 0 ≤ p.1 ∧ p.1 ≤ 99)
    (hd : ∀ p ∈ l, p.2.length ≤ BLOCK_SIZE) :
    4 + (l.map (fun p => 8 + p.2.length)).sum < 2 ^ 32 := by
  have hbound : ∀ x ∈ l.map (fun p => 8 + p.2.length), x ≤ 16392 := by
    intro x hx
    obtain ⟨p, hp, rfl⟩ := List.mem_map.mp hx
    have := hd p hp
    have hb : BLOCK_SIZE = 16384 := rfl
    omega
  have hsum := List.sum_le_card_nsmul (l.map (fun p => 8 + p.2.length)) 16392 hbound
  rw [smul_eq_mul, List.length_map] at hsum
  have hlen := keys_length_le l hc hk
  have : l.length * 16392 ≤ 100 * 16392 := Nat.mul_le_mul_right _ hlen
  omega

/-- C1.  Round-trip law of the codec: decoding the bytes produced by
write_cpr_file on a collection whose indices are in 0..99 and whose
payloads are at most 16384 bytes long returns exactly that collection
(collections taken in their canonical ascending-key dictionary form). -/
theorem c1_round_trip (blocks : List (Int × List Nat))
    (hsorted : blocks.Chain' (fun p q => p.1 < q.1))
    (hidx : ∀ p ∈ blocks, 0 ≤ p.1 ∧ p.1 ≤ 99)
    (hlen : ∀ p ∈ blocks, p.2.length ≤ BLOCK_SIZE) :
    read_cpr_blocks (write_cpr_file blocks) = .ok blocks := by
  have hT := total_size_lt blocks hsorted hidx hlen
  have hsortid : sortByKey blocks = blocks := sortByKey_sorted_id blocks hsorted
  rw [write_cpr_file, hsortid]
  rw [read_cpr_header _ (chunksBytes blocks) hT]
  have hclen := chunksBytes_length blocks hidx
  rw [readChunks_chunksBytes blocks _ _ 12 []
    (by
      rw [show RIFF_HEADER ++ (pack32 (4 + (blocks.map (fun p => 8 + p.2.length)).sum) ++
          (CPR_FORM_TYPE ++ chunksBytes blocks)) =
        (RIFF_HEADER ++ pack32 (4 + (blocks.map (fun p => 8 + p.2.length)).sum) ++
          CPR_FORM_TYPE) ++ chunksBytes blocks from by simp]
      exact drop_app_len _ _ 12 (by rfl))
    (by rw [hclen]; omega)
    (fun p hp => ⟨hidx p hp, hlen p hp⟩)]
  rw [foldl_dictInsert_fresh blocks []
    ((chain_keys_pairwise blocks hsorted).imp (fun h => ne_of_lt h))
    (by intro p _ q hq; exact absurd hq (List.not_mem_nil q))]
  rw [List.nil_append]

/-- C1 witness: a concrete two-block collection round-trips. -/
theorem c1_round_trip_witness :
    read_cpr_blocks (write_cpr_file [((0 : Int), [1, 2, 3]), ((1 : Int), [])]) =
      .ok [((0 : Int), [1, 2, 3]), ((1 : Int), [])] :=
  c1_round_trip [((0 : Int), [1, 2, 3]), ((1 : Int), [])]
    (by simp) (by decide) (by decide)

/-- C2.  Oversized-chunk handling: a cartridge chunk cb00 declaring a
chunk_size larger than 16384 (the payload being present in full) stores
exactly 16384 bytes as the block data and skips the remaining
chunk_size - 16384 bytes, the loop ending exactly at the declared end of
the chunk (total_size + 8). -/
theorem c2_oversized_chunk (payload : List Nat)
    (hlen : BLOCK_SIZE < payload.length)
    (hsz : payload.length + 12 < 2 ^ 32) :
    read_cpr_blocks (RIFF_HEADER ++ (pack32 (12 + payload.length) ++
      (CPR_FORM_TYPE ++ ([99, 98, 48, 48] ++ (pack32 payload.length ++ payload))))) =
      .ok [((0 : Int), payload.take BLOCK_SIZE)] ∧
    (payload.take BLOCK_SIZE).length = BLOCK_SIZE := by
  have hb : BLOCK_SIZE = 16384 := rfl
  have htake : (payload.take BLOCK_SIZE).length = BLOCK_SIZE := by
    rw [List.length_take]
    omega
  refine ⟨?_, htake⟩
  rw [read_cpr_header (12 + payload.length) _ (by omega)]
  have hdrop : (RIFF_HEADER ++ (pack32 (12 + payload.length) ++
      (CPR_FORM_TYPE ++ ([99, 98, 48, 48] ++ (pack32 payload.length ++ payload))))).drop 12 =
      [99, 98, 48, 48] ++ (pack32 payload.length ++ payload) := by
    rw [show RIFF_HEADER ++ (pack32 (12 + payload.length) ++
        (CPR_FORM_TYPE ++ ([99, 98, 48, 48] ++ (pack32 payload.length ++ payload)))) =
      (RIFF_HEADER ++ pack32 (12 + payload.length) ++ CPR_FORM_TYPE) ++
        ([99, 98, 48, 48] ++ (pack32 payload.length ++ payload)) from by simp]
    exact drop_app_len _ _ 12 (by rfl)
  rw [readChunks_step _ _ 12 [] [99, 98, 48, 48] (pack32 payload.length) payload
    (by omega) hdrop (by rfl) (pack32_length _)]
  rw [if_pos (by rfl)]
  rw [show pyIntOfBytes (List.drop 2 [99, 98, 48, 48]) = .ok 0 from rfl]
  dsimp only
  rw [le32_pack32 _ (by omega)]
  rw [Nat.min_eq_right (le_of_lt hlen), htake]
  rw [readChunks_exit _ _ _ _ (by omega)]
  rfl

/-- C2 witness: a cb00 chunk declaring chunk_size 20000 yields a block of
exactly 16384 bytes with the extra 3616 bytes skipped. -/
theorem c2_oversized_chunk_witness :
    read_cpr_blocks (RIFF_HEADER ++ (pack32 (12 + (List.replicate 20000 5).length) ++
      (CPR_FORM_TYPE ++ ([99, 98, 48, 48] ++
        (pack32 (List.replicate 20000 5).length ++ List.replicate 20000 5))))) =
      .ok [((0 : Int), (List.replicate 20000 5).take BLOCK_SIZE)] ∧
    ((List.replicate 20000 5).take BLOCK_SIZE).length = BLOCK_SIZE :=
  c2_oversized_chunk (List.replicate 20000 5)
    (by rw [List.length_replicate]; decide)
    (by rw [List.length_replicate]; decide)

/-! Header error behaviour, shared by several theorems below. -/

theorem decode_bad_riff (buf : List Nat) (h : buf.take 4 ≠ RIFF_HEADER) :
    read_cpr_blocks buf = .error (.conversionError "Not a valid RIFF file") := by
  unfold read_cpr_blocks readBytes
  rw [List.drop_zero, if_pos h]

theorem decode_short_size (buf : List Nat) (h1 : buf.take 4 = RIFF_HEADER)
    (h2 : ((buf.drop 4).take 4).length ≠ 4) :
    read_cpr_blocks buf = .error .structError := by
  unfold read_cpr_blocks readBytes
  rw [List.drop_zero, if_neg (fun hc => hc h1), if_neg h2]

theorem decode_bad_form (buf : List Nat) (h1 : buf.take 4 = RIFF_HEADER)
    (h2 : ((buf.drop 4).take 4).length = 4)
    (h3 : (buf.drop 8).take 4 ≠ CPR_FORM_TYPE) :
    read_cpr_blocks buf =
      .error (.conversionError "Not a valid CPR file (missing AMS! identifier)") := by
  unfold read_cpr_blocks readBytes
  rw [List.drop_zero, if_neg (fun hc => hc h1), if_pos h2, if_pos h3]

/-- C3 counterexample: a chunk whose tag is the bytes of cb+5 (suffix not
two ASCII digits) does not make decode fail; the Python int constructor
accepts the sign, and the chunk is stored as block 5. -/
theorem c3_counterexample :
    read_cpr_blocks (RIFF_HEADER ++ (pack32 13 ++ (CPR_FORM_TYPE ++
      ([99, 98, 43, 53] ++ (pack32 1 ++ [171]))))) = .ok [((5 : Int), [171])] := by
  rw [read_cpr_header 13 _ (by decide)]
  rw [readChunks_step _ 13 12 [] [99, 98, 43, 53] (pack32 1) [171]
    (by omega) (by rfl) (by rfl) (by rfl)]
  rw [if_pos (by rfl)]
  rw [show pyIntOfBytes (List.drop 2 [99, 98, 43, 53]) = .ok 5 from rfl]
  dsimp only
  rw [readChunks_exit _ _ _ _ (by decide)]
  rfl

/-- C3 amended: when the two tag-suffix bytes of a cartridge-prefixed
chunk are rejected by int(suffix.decode()) - a ValueError or
UnicodeDecodeError, there being no dedicated MalformedBlockTag - the whole
decode aborts with that untyped builtin error, so no block is inserted;
suffixes the int constructor accepts (signs, whitespace, non-ASCII
digits) instead store a block (see the counterexample). -/
theorem c3_amended (buf : List Nat) (t pos : Nat) (acc : List (Int × List Nat))
    (b3 b4 : Nat) (sizeB rest : List Nat) (e : PyErr)
    (hpos : pos < t + 8)
    (hdrop : buf.drop pos = [99, 98, b3, b4] ++ (sizeB ++ rest))
    (hsz : sizeB.length = 4)
    (hpi : pyIntOfBytes [b3, b4] = .error e) :
    readChunks buf t pos acc = .error e := by
  rw [readChunks_step buf t pos acc [99, 98, b3, b4] sizeB rest hpos hdrop (by rfl) hsz]
  rw [if_pos (by rfl)]
  rw [show List.drop 2 [99, 98, b3, b4] = [b3, b4] from rfl, hpi]

/-- C3 amended witness: the tag cbxy aborts the chunk loop with the
untyped ValueError. -/
theorem c3_amended_witness :
    readChunks (RIFF_HEADER ++ (pack32 13 ++ (CPR_FORM_TYPE ++
      ([99, 98, 120, 121] ++ (pack32 1 ++ [171]))))) 13 12 [] =
      .error .valueError :=
  c3_amended _ 13 12 [] 120 121 (pack32 1) [171] .valueError
    (by omega) (by rfl) (by rfl) (by rfl)

/-- C8.  Non-cartridge chunk skipping: a chunk whose tag does not start
with cb advances the position by exactly its header plus declared size and
leaves the collection untouched. -/
theorem c8_skip_chunk (buf : List Nat) (t pos : Nat) (acc : List (Int × List Nat))
    (tagB sizeB rest : List Nat)
    (hpos : pos < t + 8)
    (hdrop : buf.drop pos = tagB ++ (sizeB ++ rest))
    (htag : tagB.length = 4) (hsz : sizeB.length = 4)
    (hcb : tagB.take 2 ≠ CB_TAG) :
    readChunks buf t pos acc = readChunks buf t (pos + 8 + le32dec sizeB) acc := by
  rw [readChunks_step buf t pos acc tagB sizeB rest hpos hdrop htag hsz, if_neg hcb]

/-- C8 witness: in a container holding cb00, then a LIST chunk, then
cb01, the loop skips the LIST chunk in place: at its position it just
advances past the declared two payload bytes with the collection
unchanged. -/
theorem c8_skip_chunk_witness :
    readChunks (RIFF_HEADER ++ (pack32 32 ++ (CPR_FORM_TYPE ++
      ([99, 98, 48, 48] ++ (pack32 1 ++ ([5] ++
        ([76, 73, 83, 84] ++ (pack32 2 ++ ([9, 9] ++
          ([99, 98, 48, 49] ++ (pack32 1 ++ [6]))))))))))) 32 21 [((0 : Int), [5])] =
      readChunks (RIFF_HEADER ++ (pack32 32 ++ (CPR_FORM_TYPE ++
        ([99, 98, 48, 48] ++ (pack32 1 ++ ([5] ++
          ([76, 73, 83, 84] ++ (pack32 2 ++ ([9, 9] ++
            ([99, 98, 48, 49] ++ (pack32 1 ++ [6]))))))))))) 32
        (21 + 8 + le32dec (pack32 2)) [((0 : Int), [5])] :=
  c8_skip_chunk _ 32 21 [((0 : Int), [5])] [76, 73, 83, 84] (pack32 2)
    ([9, 9] ++ ([99, 98, 48, 49] ++ (pack32 1 ++ [6])))
    (by omega) (by rfl) (by rfl) (by rfl) (by decide)

/-- C9.  Bad magic: an input whose first four bytes are not RIFF fails
with the ConversionError raised at the RIFF check, and an input whose
four bytes after total_size are not AMS! fails with the ConversionError
raised at the form-type check. -/
theorem c9_bad_magic :
    (∀ buf : List Nat, buf.take 4 ≠ RIFF_HEADER →
      read_cpr_blocks buf = .error (.conversionError "Not a valid RIFF file")) ∧
    (∀ buf : List Nat, buf.take 4 = RIFF_HEADER →
      ((buf.drop 4).take 4).length = 4 →
      (buf.drop 8).take 4 ≠ CPR_FORM_TYPE →
      read_cpr_blocks buf =
        .error (.conversionError "Not a valid CPR file (missing AMS! identifier)")) :=
  ⟨decode_bad_riff, decode_bad_form⟩

/-- C9 witness: a buffer starting with RIFG fails at the RIFF check, and
one with the form type AMS followed by a period fails at the form-type
check. -/
theorem c9_bad_magic_witness :
    read_cpr_blocks [82, 73, 70, 71, 4, 0, 0, 0, 65, 77, 83, 33] =
      .error (.conversionError "Not a valid RIFF file") ∧
    read_cpr_blocks [82, 73, 70, 70, 4, 0, 0, 0, 65, 77, 83, 46] =
      .error (.conversionError "Not a valid CPR file (missing AMS! identifier)") :=
  ⟨c9_bad_magic.1 [82, 73, 70, 71, 4, 0, 0, 0, 65, 77, 83, 33] (by decide),
   c9_bad_magic.2 [82, 73, 70, 70, 4, 0, 0, 0, 65, 77, 83, 46]
     (by decide) (by decide) (by decide)⟩

/-- C10 counterexample: truncated input is not reported by a dedicated
typed end-of-stream error.  A stream that ends inside the RIFF magic
fails with the very same ConversionError as a wrong magic, and a stream
that ends inside the total_size field fails with the untyped struct.error
of the generic handler. -/
theorem c10_counterexample :
    read_cpr_blocks [82, 73, 70] =
      .error (.conversionError "Not a valid RIFF file") ∧
    read_cpr_blocks [82, 73, 70, 71, 0, 0, 0, 0, 65, 77, 83, 33] =
      .error (.conversionError "Not a valid RIFF file") ∧
    read_cpr_blocks [82, 73, 70, 70, 0, 0] = .error .structError :=
  ⟨decode_bad_riff _ (by decide), decode_bad_riff _ (by decide),
   decode_short_size _ (by decide) (by decide)⟩

/-- C10 amended: a stream ending before the 12-byte container header is
fully read always fails, but never with a dedicated end-of-stream error:
inside or before the RIFF magic it is the bad-magic ConversionError,
inside the total_size field it is the untyped struct.error, and after it
the short form-type read fails the AMS! comparison.  A stream ending
inside a chunk header likewise fails with the untyped struct.error. -/
theorem c10_amended :
    (∀ buf : List Nat, buf.length < 12 →
      read_cpr_blocks buf = .error (
        if buf.take 4 = RIFF_HEADER then
          (if buf.length < 8 then PyErr.structError
           else .conversionError "Not a valid CPR file (missing AMS! identifier)")
        else .conversionError "Not a valid RIFF file")) ∧
    (∀ (t : Nat) (rest : List Nat), 4 < t → t < 2 ^ 32 → rest.length < 8 →
      read_cpr_blocks (RIFF_HEADER ++ (pack32 t ++ (CPR_FORM_TYPE ++ rest))) =
        .error .structError) := by
  constructor
  · intro buf h
    by_cases hr : buf.take 4 = RIFF_HEADER
    · have hlen4 : 4 ≤ buf.length := by
        have : (buf.take 4).length = 4 := by rw [hr]; rfl
        rw [List.length_take] at this
        omega
      rw [if_pos hr]
      by_cases h8 : buf.length < 8
      · rw [if_pos h8]
        apply decode_short_size buf hr
        rw [List.length_take, List.length_drop]
        omega
      · rw [if_neg h8]
        apply decode_bad_form buf hr
        · rw [List.length_take, List.length_drop]
          omega
        · intro hc
          have : ((buf.drop 8).take 4).length = 4 := by rw [hc]; rfl
          rw [List.length_take, List.length_drop] at this
          omega
    · rw [if_neg hr]
      exact decode_bad_riff buf hr
  · intro t rest h4 h32 h8
    rw [read_cpr_header t rest h32]
    rw [readChunks]
    rw [dif_pos (by omega)]
    have hd12 : (RIFF_HEADER ++ (pack32 t ++ (CPR_FORM_TYPE ++ rest))).drop 12 = rest := by
      rw [show RIFF_HEADER ++ (pack32 t ++ (CPR_FORM_TYPE ++ rest)) =
        (RIFF_HEADER ++ pack32 t ++ CPR_FORM_TYPE) ++ rest from by simp]
      exact drop_app_len _ _ 12 (by rfl)
    have hid : readBytes (RIFF_HEADER ++ (pack32 t ++ (CPR_FORM_TYPE ++ rest))) 12 4 =
        rest.take 4 := by
      unfold readBytes; rw [hd12]
    have hbuflen : (RIFF_HEADER ++ (pack32 t ++ (CPR_FORM_TYPE ++ rest))).length =
        12 + rest.length := by
      simp [RIFF_HEADER, CPR_FORM_TYPE, pack32]
      omega
    have hszlen : (readBytes (RIFF_HEADER ++ (pack32 t ++ (CPR_FORM_TYPE ++ rest)))
        (12 + (rest.take 4).length) 4).length ≠ 4 := by
      unfold readBytes
      rw [List.length_take, List.length_drop, List.length_take, hbuflen]
      omega
    simp only [hid]
    rw [if_neg hszlen]

/-- C4 counterexample: an image of exactly 524288 bytes is larger than
524288 - 1, yet the conversion does not fail, because its 32 slices are
within the cap; the restated threshold in the claim is off by one. -/
theorem c4_counterexample :
    524288 > 524288 - 1 ∧
    convert_bin_to_cpr (List.replicate 524288 0) ≠
      .error (.conversionError "Input file too large (max 32 blocks / 512KB supported)") := by
  refine ⟨by decide, ?_⟩
  unfold convert_bin_to_cpr
  rw [List.length_replicate]
  rw [if_neg (by decide)]
  intro hc
  exact Except.noConfusion hc

/-- C4 amended: the conversion fails with the size-cap ConversionError
exactly when the slice count, the ceiling of length over 16384, exceeds
32 - equivalently when the image length exceeds 524288 bytes (not
524288 - 1: a 524288-byte image fills exactly 32 blocks and succeeds).
On failure the error is returned before any output bytes are produced. -/
theorem c4_amended (binData : List Nat) :
    (convert_bin_to_cpr binData =
      .error (.conversionError "Input file too large (max 32 blocks / 512KB supported)") ↔
      binData.length > 524288) ∧
    ((binData.length + BLOCK_SIZE - 1) / BLOCK_SIZE > 32 ↔ binData.length > 524288) := by
  have hiff : (binData.length + BLOCK_SIZE - 1) / BLOCK_SIZE > 32 ↔
      binData.length > 524288 := by
    have hb : BLOCK_SIZE = 16384 := rfl
    rw [hb]
    omega
  refine ⟨?_, hiff⟩
  unfold convert_bin_to_cpr
  by_cases h : (binData.length + BLOCK_SIZE - 1) / BLOCK_SIZE > 32
  · rw [if_pos h]
    simp [hiff.mp h]
  · rw [if_neg h]
    constructor
    · intro hc
      exact absurd hc (by simp)
    · intro hlen
      exact absurd (hiff.mpr hlen) h

/-- C10 amended witness: the truncated inputs RIF and a container whose
chunk area holds only two bytes fail as the amended statement describes. -/
theorem c10_amended_witness :
    read_cpr_blocks [82, 73, 70] = .error (
      if [82, 73, 70].take 4 = RIFF_HEADER then
        (if ([82, 73, 70] : List Nat).length < 8 then PyErr.structError
         else .conversionError "Not a valid CPR file (missing AMS! identifier)")
      else .conversionError "Not a valid RIFF file") ∧
    read_cpr_blocks (RIFF_HEADER ++ (pack32 13 ++ (CPR_FORM_TYPE ++ [99, 98]))) =
      .error .structError :=
  ⟨c10_amended.1 [82, 73, 70] (by decide),
   c10_amended.2 13 [99, 98] (by decide) (by decide) (by decide)⟩

/-! Chunk layout refinement for the encode direction. -/

theorem cbTag_eq_digits (n : Int) (h0 : 0 ≤ n) (h99 : n ≤ 99) :
    cbTag n = [99, 98, 48 + n.toNat / 10, 48 + n.toNat % 10] := by
  have h := pyFormat02d_two_digits n.toNat (by omega)
  rw [Int.toNat_of_nonneg h0] at h
  rw [cbTag, h]
  rfl

theorem chunksBytes_eq_spec (l : List (Int × List Nat))
    (hk : ∀ p ∈ l, 0 ≤ p.1 ∧ p.1 ≤ 99) : chunksBytes l = chunksSpec l := by
  induction l with
  | nil => rfl
  | cons p rest ih =>
    rw [chunksBytes, chunksSpec, chunkSpec,
      cbTag_eq_digits p.1 (hk p (List.mem_cons_self p rest)).1
        (hk p (List.mem_cons_self p rest)).2,
      ih (fun q hq => hk q (List.mem_cons_of_mem p hq))]
    simp [List.append_assoc]

/-- C6.  Encode output layout: on a collection in ascending-key form with
indices 0..99, write_cpr_file emits exactly RIFF, the total size
4 + sum of (8 + len(data)), AMS!, and one chunk per block in order, each
chunk being cb, the two-decimal-digit index, the payload length as a
little-endian u32 and the raw payload with no padding. -/
theorem c6_encode_layout (blocks : List (Int × List Nat))
    (hsorted : blocks.Chain' (fun p q => p.1 < q.1))
    (hidx : ∀ p ∈ blocks, 0 ≤ p.1 ∧ p.1 ≤ 99) :
    write_cpr_file blocks = encodeSpecLayout blocks := by
  rw [write_cpr_file, encodeSpecLayout, sortByKey_sorted_id blocks hsorted,
    chunksBytes_eq_spec blocks hidx]
  simp [List.append_assoc]

/-- C6 witness: the layout refinement instantiated on a two-block
collection. -/
theorem c6_encode_layout_witness :
    write_cpr_file [((0 : Int), [7]), ((5 : Int), [])] =
      encodeSpecLayout [((0 : Int), [7]), ((5 : Int), [])] :=
  c6_encode_layout [((0 : Int), [7]), ((5 : Int), [])] (by simp) (by decide)

/-! Padding lemmas for the assembly direction. -/

theorem padBlock_eq_spec (d : List Nat) (h : d.length ≤ BLOCK_SIZE) :
    padBlock d = d ++ List.replicate (BLOCK_SIZE - d.length) 0 := by
  rw [padBlock]
  by_cases hlt : d.length < BLOCK_SIZE
  · rw [if_pos hlt]
  · rw [if_neg hlt, Nat.sub_eq_zero_of_le (by omega), List.replicate_zero,
      List.append_nil]

theorem catBlocks_eq_spec (l : List (Int × List Nat))
    (h : ∀ p ∈ l, p.2.length ≤ BLOCK_SIZE) : catBlocks l = catBlocksSpec l := by
  induction l with
  | nil => rfl
  | cons p rest ih =>
    rw [catBlocks, catBlocksSpec, padBlock_eq_spec p.2 (h p (List.mem_cons_self p rest)),
      ih (fun q hq => h q (List.mem_cons_of_mem p hq))]

theorem catBlocks_length (l : List (Int × List Nat))
    (h : ∀ p ∈ l, p.2.length ≤ BLOCK_SIZE) :
    (catBlocks l).length = BLOCK_SIZE * l.length := by
  induction l with
  | nil => rfl
  | cons p rest ih =>
    rw [catBlocks, List.length_append, padBlock_eq_spec p.2 (h p (List.mem_cons_self p rest)),
      ih (fun q hq => h q (List.mem_cons_of_mem p hq))]
    have := h p (List.mem_cons_self p rest)
    simp only [List.length_append, List.length_replicate, List.length_cons]
    have hb : BLOCK_SIZE = 16384 := rfl
    rw [hb] at this ⊢
    omega

/-- C7.  Assembly direction: the flat image is the concatenation, in
ascending numeric index order, of exactly the blocks present, each
zero-padded to 16384 bytes, and its total length is 16384 times the
number of present blocks - gaps in the index sequence are not filled. -/
theorem c7_assemble (blocks : List (Int × List Nat))
    (hlen : ∀ p ∈ blocks, p.2.length ≤ BLOCK_SIZE) :
    cprToBinImage blocks = binImageSpec blocks ∧
    (cprToBinImage blocks).length = BLOCK_SIZE * blocks.length := by
  have hmem : ∀ p ∈ sortByKey blocks, p.2.length ≤ BLOCK_SIZE :=
    fun p hp => hlen p ((sortByKey_perm blocks).mem_iff.mp hp)
  constructor
  · rw [cprToBinImage, binImageSpec, catBlocks_eq_spec _ hmem]
  · rw [cprToBinImage, catBlocks_length _ hmem, (sortByKey_perm blocks).length_eq]

/-- C7 witness: a collection holding only indices 0 and 2 assembles to the
two padded blocks back to back, 32768 bytes in total, with no empty block
inserted for the missing index 1. -/
theorem c7_assemble_witness :
    cprToBinImage [((0 : Int), [1]), ((2 : Int), [])] =
      binImageSpec [((0 : Int), [1]), ((2 : Int), [])] ∧
    (cprToBinImage [((0 : Int), [1]), ((2 : Int), [])]).length = BLOCK_SIZE * 2 :=
  c7_assemble [((0 : Int), [1]), ((2 : Int), [])] (by decide)

/-! The concrete encode scenario of the specification: blocks
0 -> 16384 zero bytes and 1 -> 100 bytes of 255. -/

theorem drop12_container (t : Nat) (body : List Nat) :
    (RIFF_HEADER ++ (pack32 t ++ (CPR_FORM_TYPE ++ body))).drop 12 = body := by
  rw [show RIFF_HEADER ++ (pack32 t ++ (CPR_FORM_TYPE ++ body)) =
    (RIFF_HEADER ++ pack32 t ++ CPR_FORM_TYPE) ++ body from by simp]
  exact drop_app_len _ _ 12 (by rfl)

theorem encode_scenario_eq :
    write_cpr_file [((0 : Int), List.replicate 16384 0), ((1 : Int), List.replicate 100 255)] =
      RIFF_HEADER ++ (pack32 16504 ++ (CPR_FORM_TYPE ++
        ([99, 98, 48, 48] ++ (pack32 16384 ++ (List.replicate 16384 0 ++
          ([99, 98, 48, 49] ++ (pack32 100 ++ (List.replicate 100 255 ++ [])))))))) := by
  rw [write_cpr_file, sortByKey_sorted_id _
    (List.chain'_cons.mpr ⟨by norm_num, List.chain'_singleton _⟩),
    chunksBytes, chunksBytes, chunksBytes]
  rw [cbTag_eq_digits 0 (by norm_num) (by norm_num),
    cbTag_eq_digits 1 (by norm_num) (by norm_num)]
  simp only [List.map_cons, List.map_nil, List.sum_cons, List.sum_nil,
    List.length_replicate]
  norm_num

theorem encode_scenario_length :
    (write_cpr_file [((0 : Int), List.replicate 16384 0),
      ((1 : Int), List.replicate 100 255)]).length = 16512 := by
  rw [encode_scenario_eq]
  simp only [List.length_append, List.length_replicate, List.length_cons,
    List.length_nil, RIFF_HEADER, CPR_FORM_TYPE, pack32]

/-- C5 counterexample: the scenario buffer has 16512 bytes, which is what
the claim's own formula 12 + (8 + 16384) + (8 + 100) evaluates to; the
stated total of 16516 bytes is wrong. -/
theorem c5_counterexample :
    (write_cpr_file [((0 : Int), List.replicate 16384 0),
      ((1 : Int), List.replicate 100 255)]).length = 16512 ∧
    12 + (8 + 16384) + (8 + 100) = 16512 ∧ (16512 : Nat) ≠ 16516 :=
  ⟨encode_scenario_length, by norm_num, by norm_num⟩

/-- C5 amended: encoding the collection 0 -> 16384 zero bytes,
1 -> 100 bytes of 255 produces a buffer of exactly
12 + (8 + 16384) + (8 + 100) = 16512 bytes whose bytes 12..15 read cb00,
whose bytes 16..19 read 16384 as a little-endian u32 (0, 64, 0, 0), and
whose final 100 bytes, offset 16412 on, are all 255. -/
theorem c5_concrete_encode :
    (write_cpr_file [((0 : Int), List.replicate 16384 0),
      ((1 : Int), List.replicate 100 255)]).length = 16512 ∧
    ((write_cpr_file [((0 : Int), List.replicate 16384 0),
      ((1 : Int), List.replicate 100 255)]).drop 12).take 4 = [99, 98, 48, 48] ∧
    ((write_cpr_file [((0 : Int), List.replicate 16384 0),
      ((1 : Int), List.replicate 100 255)]).drop 16).take 4 = [0, 64, 0, 0] ∧
    (write_cpr_file [((0 : Int), List.replicate 16384 0),
      ((1 : Int), List.replicate 100 255)]).drop 16412 = List.replicate 100 255 := by
  refine ⟨encode_scenario_length, ?_, ?_, ?_⟩
  · rw [encode_scenario_eq, drop12_container]
    exact take_app_len _ _ 4 (by rfl)
  · rw [encode_scenario_eq]
    have h16 : (RIFF_HEADER ++ (pack32 16504 ++ (CPR_FORM_TYPE ++
        ([99, 98, 48, 48] ++ (pack32 16384 ++ (List.replicate 16384 0 ++
          ([99, 98, 48, 49] ++ (pack32 100 ++ (List.replicate 100 255 ++ []))))))))).drop 16 =
        pack32 16384 ++ (List.replicate 16384 0 ++
          ([99, 98, 48, 49] ++ (pack32 100 ++ (List.replicate 100 255 ++ [])))) := by
      rw [show (16 : Nat) = 12 + 4 from rfl, ← List.drop_drop, drop12_container]
      exact drop_app_len _ _ 4 (by rfl)
    rw [h16]
    exact take_app_len _ _ 4 (by rfl)
  · rw [encode_scenario_eq]
    rw [show (16412 : Nat) = 12 + 16400 from rfl, ← List.drop_drop, drop12_container]
    rw [show [99, 98, 48, 48] ++ (pack32 16384 ++ (List.replicate 16384 0 ++
        ([99, 98, 48, 49] ++ (pack32 100 ++ (List.replicate 100 255 ++ []))))) =
      ([99, 98, 48, 48] ++ pack32 16384 ++ List.replicate 16384 0 ++
        [99, 98, 48, 49] ++ pack32 100) ++ (List.replicate 100 255 ++ []) from by
      simp only [List.append_assoc]]
    rw [drop_app_len _ _ 16400 (by
      simp only [List.length_append, List.length_replicate, List.length_cons,
        List.length_nil, pack32])]
    exact List.append_nil _

end Cpr2Bin
